import Mathlib

/-!
Shallow embedding of the kiosk refresh loop of the `py-qt-kiosk` repository:
the countdown scheduler, flashcard store and random pick of
`characters.py`, the message reader and countdown clock of `clock.py`, the
flashcard loader of `hanzi_display.py`, and the IP-address helpers of both
UI files.  Timer-driven callbacks are modelled as explicit state-passing
functions; Python exceptions are modelled with `Option`/`Except`.
-/

namespace Kiosk

/-- One flashcard record from `flashcards.json`.  `characters.py` reads the
`Hanzi` and `Pinyin` keys with `dict.get(key, "")`, so each field may be
absent; `none` models an absent key. -/
structure Flashcard where
  hanzi : Option String
  pinyin : Option String
deriving DecidableEq, Repr

/-- The visible flashcard part of the display: the big character label and
the pinyin frame label of `CharacterDisplay`. -/
structure DisplayState where
  character : String
  pinyin : String
deriving DecidableEq, Repr

/-- Scheduler state of `CharacterDisplay`: the `countdown_seconds` field
(an unbounded Python int, hence `Int`) together with the labels the
refresh action updates. -/
structure KioskState where
  countdown : Int
  display : DisplayState
deriving DecidableEq, Repr

/-- `random.randrange(n)`: the pseudo-random source supplies an arbitrary
natural `rand` and `randrange` reduces it into `[0, n)`.  Every residue is
reached for some draw, which is how the uniform range of the Python call
is reflected. -/
def randrange (n : Nat) (rand : Nat) : Nat :=
  rand % n

/-- The guarded index choice inside `_display_random_character`: the early
`if not self.flashcards: return` is modelled by `none` (the spec's
`EmptyStoreError`); otherwise the index is `randrange(len(flashcards))`. -/
def pick_random (cards : List Flashcard) (rand : Nat) : Option Nat :=
  if cards.isEmpty then none
  else some (randrange cards.length rand)

/-- `_display_random_character` of `characters.py`: on an empty store the
labels are left untouched, otherwise both labels are set from the chosen
card, with `.get(key, "")` defaulting absent keys to `""`. -/
def display_random_character (cards : List Flashcard) (rand : Nat)
    (st : DisplayState) : DisplayState :=
  match pick_random cards rand with
  | none => st
  | some i =>
      let card := cards.getD i ⟨none, none⟩
      ⟨card.hanzi.getD "", card.pinyin.getD ""⟩

/-- `CHARACTER_UPDATE_INTERVAL // 1000` of `characters.py`: the configured
refresh interval in seconds. -/
def refreshInterval : Nat := 10

/-- `_update_countdown` of `characters.py` with the reset constant
abstracted as `interval`: decrement `countdown_seconds`, and when the
result is `<= 0` run `_update_character` (modelled by its flashcard half)
and reset the counter.  The second component records whether the refresh
fired on this tick. -/
def update_countdown (interval : Nat) (cards : List Flashcard) (rand : Nat)
    (st : KioskState) : KioskState × Bool :=
  let c := st.countdown - 1
  if c ≤ 0 then
    (⟨(interval : Int), display_random_character cards rand st.display⟩, true)
  else
    (⟨c, st.display⟩, false)

/-- Run `n` timer ticks, feeding the ticks successive draws from the
random stream `rands`, and count how many refreshes fired. -/
def runTicks (interval : Nat) (cards : List Flashcard) :
    (Nat → Nat) → KioskState → Nat → KioskState × Nat
  | _, st, 0 => (st, 0)
  | rands, st, n + 1 =>
      let step := update_countdown interval cards (rands 0) st
      let rest := runTicks interval cards (fun i => rands (i + 1)) step.1 n
      (rest.1, (if step.2 then 1 else 0) + rest.2)

/-- Auxiliary: running `k` ticks from a counter value of exactly `k ≥ 1`
fires exactly one refresh and ends with the counter reset to `interval`. -/
theorem runTicks_from_counter (interval : Nat) (cards : List Flashcard) :
    ∀ k : Nat, 1 ≤ k → ∀ (rands : Nat → Nat) (d : DisplayState),
      (runTicks interval cards rands ⟨(k : Int), d⟩ k).1.countdown = (interval : Int) ∧
      (runTicks interval cards rands ⟨(k : Int), d⟩ k).2 = 1 := by
  intro k
  induction k with
  | zero => intro h; omega
  | succ k ih =>
      intro _ rands d
      by_cases hk : k = 0
      · subst hk
        simp [runTicks, update_countdown]
      · have hk1 : 1 ≤ k := Nat.one_le_iff_ne_zero.mpr hk
        have hpos : ¬ ((k + 1 : Int) - 1 ≤ 0) := by
          have : (1 : Int) ≤ (k : Int) := by exact_mod_cast hk1
          omega
        have hstep :
            update_countdown interval cards (rands 0) ⟨((k + 1 : Nat) : Int), d⟩ =
              (⟨(k : Int), d⟩, false) := by
          simp only [update_countdown]
          rw [if_neg (by push_cast; omega)]
          have : ((k + 1 : Nat) : Int) - 1 = (k : Int) := by push_cast; ring
          rw [this]
        simp only [runTicks, hstep]
        have h2 := ih hk1 (fun i => rands (i + 1)) d
        simp [h2.1, h2.2]

/-- C1: RefreshScheduler tick behaviour.  For every positive interval,
from `Counting(interval)` each tick decrements the counter by one; a tick
whose decremented counter is `<= 0` fires the refresh and resets the
counter to the interval; and after exactly `interval` ticks from
`Counting(interval)` exactly one refresh has fired and the counter equals
`interval` again. -/
theorem scheduler_interval_ticks (interval : Nat) (h : 1 ≤ interval)
    (cards : List Flashcard) (rands : Nat → Nat) (d : DisplayState) :
    (∀ st : KioskState, ∀ rand, 1 < st.countdown →
        update_countdown interval cards rand st =
          (⟨st.countdown - 1, st.display⟩, false)) ∧
    (∀ st : KioskState, ∀ rand, st.countdown ≤ 1 →
        (update_countdown interval cards rand st).1.countdown = (interval : Int) ∧
        (update_countdown interval cards rand st).2 = true) ∧
    (runTicks interval cards rands ⟨(interval : Int), d⟩ interval).1.countdown
        = (interval : Int) ∧
    (runTicks interval cards rands ⟨(interval : Int), d⟩ interval).2 = 1 := by
  refine ⟨?_, ?_, ?_, ?_⟩
  · intro st rand hgt
    simp only [update_countdown]
    rw [if_neg (by omega)]
  · intro st rand hle
    simp only [update_countdown]
    rw [if_pos (by omega)]
    exact ⟨rfl, rfl⟩
  · exact (runTicks_from_counter interval cards interval h rands d).1
  · exact (runTicks_from_counter interval cards interval h rands d).2

/-- Witness for C1 at the configured interval 10 and an arbitrary stream. -/
theorem scheduler_interval_ticks_witness :
    1 ≤ refreshInterval ∧
    (runTicks refreshInterval [] (fun _ => 0)
        ⟨(refreshInterval : Int), ⟨"", ""⟩⟩ refreshInterval).2 = 1 :=
  ⟨by decide,
   (scheduler_interval_ticks refreshInterval (by decide) [] (fun _ => 0)
     ⟨"", ""⟩).2.2.2⟩

/-- Auxiliary single-step preservation for the countdown range invariant. -/
theorem update_countdown_range (interval : Nat) (cards : List Flashcard)
    (rand : Nat) (st : KioskState) (_h1 : 1 ≤ st.countdown)
    (h2 : st.countdown ≤ (interval : Int)) (hint : 1 ≤ interval) :
    1 ≤ (update_countdown interval cards rand st).1.countdown ∧
    (update_countdown interval cards rand st).1.countdown ≤ (interval : Int) := by
  simp only [update_countdown]
  by_cases hc : st.countdown - 1 ≤ 0
  · rw [if_pos hc]
    constructor
    · simpa using (by exact_mod_cast hint : (1 : Int) ≤ (interval : Int))
    · simp
  · rw [if_neg hc]
    constructor
    · simpa using (by omega : (1 : Int) ≤ st.countdown - 1)
    · simpa using (by omega : st.countdown - 1 ≤ (interval : Int))

/-- Auxiliary: the range invariant carried through any run of ticks. -/
theorem runTicks_range (interval : Nat) (cards : List Flashcard)
    (hint : 1 ≤ interval) :
    ∀ (n : Nat) (rands : Nat → Nat) (st : KioskState),
      1 ≤ st.countdown → st.countdown ≤ (interval : Int) →
      1 ≤ (runTicks interval cards rands st n).1.countdown ∧
      (runTicks interval cards rands st n).1.countdown ≤ (interval : Int) := by
  intro n
  induction n with
  | zero => intro rands st h1 h2; exact ⟨h1, h2⟩
  | succ n ih =>
      intro rands st h1 h2
      have hstep := update_countdown_range interval cards (rands 0) st h1 h2 hint
      simp only [runTicks]
      exact ih (fun i => rands (i + 1)) _ hstep.1 hstep.2

/-- C10: implicit range invariant.  Starting from the configured positive
interval, after every execution of the tick handler the stored counter
lies in `[1, interval]`: the decrement-then-reset order keeps it positive
and never above the interval. -/
theorem countdown_range_invariant (interval : Nat) (h : 1 ≤ interval)
    (cards : List Flashcard) (rands : Nat → Nat) (d : DisplayState) (n : Nat) :
    1 ≤ (runTicks interval cards rands ⟨(interval : Int), d⟩ n).1.countdown ∧
    (runTicks interval cards rands ⟨(interval : Int), d⟩ n).1.countdown
        ≤ (interval : Int) := by
  refine runTicks_range interval cards h n rands _ ?_ ?_
  · show (1 : Int) ≤ (interval : Int)
    exact_mod_cast h
  · exact le_refl _

/-- Witness for C10 at interval 10, seven ticks. -/
theorem countdown_range_invariant_witness :
    1 ≤ refreshInterval ∧
    1 ≤ (runTicks refreshInterval [] (fun _ => 0)
          ⟨(refreshInterval : Int), ⟨"", ""⟩⟩ 7).1.countdown :=
  ⟨by decide,
   (countdown_range_invariant refreshInterval (by decide) [] (fun _ => 0)
     ⟨"", ""⟩ 7).1⟩

/-- C5: for every non-empty flashcard sequence, every draw of the random
source yields an index inside `[0, N)`, and every index in `[0, N)` is
produced by some draw — no index is systematically excluded. -/
theorem pick_random_range_and_reachable (cards : List Flashcard)
    (h : cards ≠ []) :
    (∀ rand, ∃ i, pick_random cards rand = some i ∧ i < cards.length) ∧
    (∀ i, i < cards.length → ∃ rand, pick_random cards rand = some i) := by
  have hne : cards.isEmpty = false := by
    cases cards with
    | nil => exact absurd rfl h
    | cons a t => rfl
  have hlen : 0 < cards.length := List.length_pos.mpr h
  constructor
  · intro rand
    refine ⟨randrange cards.length rand, ?_, ?_⟩
    · simp [pick_random, hne]
    · exact Nat.mod_lt rand hlen
  · intro i hi
    refine ⟨i, ?_⟩
    simp [pick_random, hne, randrange, Nat.mod_eq_of_lt hi]

/-- Witness for C5 on a two-card store: index 1 is reached. -/
theorem pick_random_range_and_reachable_witness :
    ([⟨some "学", some "xué"⟩, ⟨some "好", some "hǎo"⟩] : List Flashcard) ≠ [] ∧
    ∃ rand, pick_random
        [⟨some "学", some "xué"⟩, ⟨some "好", some "hǎo"⟩] rand = some 1 :=
  ⟨by decide,
   (pick_random_range_and_reachable
      [⟨some "学", some "xué"⟩, ⟨some "好", some "hǎo"⟩] (by decide)).2 1
      (by decide)⟩

/-- C6: an empty flashcard store.  The pick is the error value `none`
(`EmptyStoreError`); on a tick whose countdown expires the refresh is
skipped — the displayed character and pinyin are unchanged — while the
scheduler itself carries on: the counter is still reset to the interval,
so subsequent ticks keep running. -/
theorem empty_store_skips_refresh (interval : Nat) (rand : Nat)
    (st : KioskState) (h : st.countdown ≤ 1) :
    pick_random [] rand = none ∧
    display_random_character [] rand st.display = st.display ∧
    (update_countdown interval [] rand st).2 = true ∧
    (update_countdown interval [] rand st).1.display = st.display ∧
    (update_countdown interval [] rand st).1.countdown = (interval : Int) := by
  refine ⟨rfl, rfl, ?_, ?_, ?_⟩ <;>
    · simp only [update_countdown]
      rw [if_pos (by omega)]
      try rfl

/-- Witness for C6 at a concrete expiring state. -/
theorem empty_store_skips_refresh_witness :
    ((⟨1, ⟨"国", "guó"⟩⟩ : KioskState).countdown ≤ 1) ∧
    (update_countdown 10 [] 3 ⟨1, ⟨"国", "guó"⟩⟩).1.display = ⟨"国", "guó"⟩ :=
  ⟨by decide,
   (empty_store_skips_refresh 10 3 ⟨1, ⟨"国", "guó"⟩⟩ (by decide)).2.2.2.1⟩

/-- The view of the message file a single read observes: its modification
time (`st_mtime`) and full text content. -/
structure FSFile where
  mtime : Nat
  content : String
deriving DecidableEq, Repr

/-- The mutable fields of `MessageReader` in `clock.py`:
`_last_modified` (initially `0`) and `_cached_message` (initially `""`). -/
structure MessageReader where
  last_modified : Nat
  cached_message : String
deriving DecidableEq, Repr

/-- A freshly constructed `MessageReader`. -/
def freshReader : MessageReader := ⟨0, ""⟩

/-- The ASCII whitespace characters Python's `str.strip()` removes. -/
def isPySpace (c : Char) : Bool :=
  c = ' ' || c = '\t' || c = '\n' || c = '\r' ||
    c = Char.ofNat 11 || c = Char.ofNat 12

/-- Python `str.strip()` on a character list: drop whitespace from both
ends. -/
def stripChars (l : List Char) : List Char :=
  ((l.dropWhile isPySpace).reverse.dropWhile isPySpace).reverse

/-- Python `str.strip()`: remove leading and trailing whitespace. -/
def pyStrip (s : String) : String :=
  String.mk (stripChars s.toList)

/-- Python `str.rstrip()` on a character list: trailing whitespace only. -/
def rstripChars (l : List Char) : List Char :=
  (l.reverse.dropWhile isPySpace).reverse

/-- Python `str.rstrip()`: remove only trailing whitespace. -/
def pyRstrip (s : String) : String :=
  String.mk (rstripChars s.toList)

/-- Python `file.readline()` on a character list: the prefix up to and
including the first newline. -/
def readlineChars : List Char → List Char
  | [] => []
  | c :: cs => if c = '\n' then [c] else c :: readlineChars cs

/-- Python `file.readline()`: the first line of the content, newline
included when present. -/
def readline (s : String) : String :=
  String.mk (readlineChars s.toList)

/-- `MessageReader.read_message` of `clock.py`, with the file system
passed explicitly (`none` models a missing file).  A missing file yields
the literal `"Message file not found"`; otherwise the first line is
re-read and stripped only when the modification time advanced past
`_last_modified`, and the cached message — or, when it is empty, the
literal `"No message available"` — is returned together with the updated
reader state. -/
def read_message (fs : Option FSFile) (r : MessageReader) :
    String × MessageReader :=
  match fs with
  | none => ("Message file not found", r)
  | some f =>
      let r1 : MessageReader :=
        if r.last_modified < f.mtime then
          ⟨f.mtime, pyStrip (readline f.content)⟩
        else r
      ((if r1.cached_message = "" then "No message available"
        else r1.cached_message), r1)

/-- C3 counterexample: on a missing file `read_message` returns the
literal `"Message file not found"`, which is not the placeholder
`"no message available"` asserted by the claim. -/
theorem read_message_missing_placeholder_differs :
    (read_message none freshReader).1 = "Message file not found" ∧
    (read_message none freshReader).1 ≠ "no message available" := by
  exact ⟨rfl, by decide⟩

/-- C3 as amended: on a missing file `read_message` returns the fixed
placeholder `"Message file not found"` — its actual literal — and, being a
total function of the reader state, raises nothing and leaves the state
untouched. -/
theorem read_message_missing_file (r : MessageReader) :
    (read_message none r).1 = "Message file not found" ∧
    (read_message none r).2 = r :=
  ⟨rfl, rfl⟩

/-- C4 counterexample: on a file whose first line is `" hello\n"`, the
code returns `"hello"` — leading whitespace is stripped too — while the
first line trimmed of trailing whitespace only is `" hello"`. -/
theorem read_message_strips_leading_too :
    (read_message (some ⟨1, " hello\nworld\n"⟩) freshReader).1 = "hello" ∧
    pyRstrip (readline " hello\nworld\n") = " hello" ∧
    ("hello" : String) ≠ " hello" := by
  refine ⟨by decide, by decide, by decide⟩

/-- C4 as amended: on an existing file (with a positive modification
time, read through a fresh reader), `read_message` returns the first line
trimmed of both leading and trailing whitespace, provided that trimmed
line is non-empty; in particular `"hello\nworld\n"` yields `"hello"`. -/
theorem read_message_first_line (f : FSFile) (hm : 0 < f.mtime)
    (hne : pyStrip (readline f.content) ≠ "") :
    (read_message (some f) freshReader).1 = pyStrip (readline f.content) ∧
    (read_message (some f) freshReader).2 =
      ⟨f.mtime, pyStrip (readline f.content)⟩ := by
  have hlt : freshReader.last_modified < f.mtime := hm
  simp only [read_message, if_pos hlt]
  refine ⟨?_, ?_⟩
  · rw [if_neg hne]
  · trivial

/-- Witness for C4's amended statement on `"hello\nworld\n"`. -/
theorem read_message_first_line_witness :
    0 < (1 : Nat) ∧
    (read_message (some ⟨1, "hello\nworld\n"⟩) freshReader).1 = "hello" :=
  ⟨by decide,
   ((read_message_first_line ⟨1, "hello\nworld\n"⟩ (by decide)
      (by decide)).1).trans (by decide)⟩

/-- The cache-free variant of the reader named by C7: what a reader that
re-reads the file on every call returns.  Missing-file and empty-message
placeholders are those of `read_message`. -/
def read_message_uncached (fs : Option FSFile) : String :=
  match fs with
  | none => "Message file not found"
  | some f =>
      let msg := pyStrip (readline f.content)
      if msg = "" then "No message available" else msg

/-- Run the caching reader over a sequence of file snapshots, one read per
snapshot, collecting the returned strings. -/
def runCached (r : MessageReader) : List (Option FSFile) → List String
  | [] => []
  | fs :: rest =>
      let step := read_message fs r
      step.1 :: runCached step.2 rest

/-- Run the cache-free reader over the same sequence of snapshots. -/
def runUncached (tr : List (Option FSFile)) : List String :=
  tr.map read_message_uncached

/-- Ordered coherence of two snapshots `a` before `b`: if the later
content differs, the later modification time is strictly greater — the
spec's "the modification timestamp advances whenever the contents
change". -/
def mtimeCoherentB (a b : Option FSFile) : Bool :=
  match a, b with
  | some fa, some fb => decide (fa.mtime < fb.mtime) || fb.content == fa.content
  | _, _ => true

/-- Coherence of a whole snapshot sequence: every later snapshot is
coherent with every earlier one. -/
def traceCoherent : List (Option FSFile) → Bool
  | [] => true
  | a :: rest => rest.all (mtimeCoherentB a) && traceCoherent rest

/-- Every snapshot in the sequence that shows a file shows a positive
modification time (a fresh reader starts from `_last_modified = 0`). -/
def traceMtimesPos : List (Option FSFile) → Bool
  | [] => true
  | none :: rest => traceMtimesPos rest
  | some f :: rest => decide (0 < f.mtime) && traceMtimesPos rest

/-- Cache invariant: any upcoming snapshot whose modification time has
not advanced past `_last_modified` carries exactly the cached message. -/
def readerConsistent (r : MessageReader) (tr : List (Option FSFile)) : Prop :=
  ∀ f : FSFile, some f ∈ tr → f.mtime ≤ r.last_modified →
    pyStrip (readline f.content) = r.cached_message

/-- Auxiliary: a positive-mtime sequence bounds every member's mtime. -/
theorem mtimes_pos_of_mem :
    ∀ tr : List (Option FSFile), traceMtimesPos tr = true →
      ∀ f : FSFile, some f ∈ tr → 0 < f.mtime := by
  intro tr
  induction tr with
  | nil => intro _ f hf; cases hf
  | cons a rest ih =>
      intro h f hf
      rcases List.mem_cons.mp hf with h1 | h1
      · subst h1
        simp only [traceMtimesPos, Bool.and_eq_true, decide_eq_true_eq] at h
        exact h.1
      · refine ih ?_ f h1
        cases a with
        | none => simpa [traceMtimesPos] using h
        | some g =>
            simp only [traceMtimesPos, Bool.and_eq_true] at h
            exact h.2

/-- Auxiliary: along a coherent sequence the caching reader and the
cache-free reader agree, as long as the cache invariant holds. -/
theorem runCached_eq_of_consistent :
    ∀ (tr : List (Option FSFile)) (r : MessageReader),
      traceCoherent tr = true → readerConsistent r tr →
      runCached r tr = runUncached tr := by
  intro tr
  induction tr with
  | nil => intro r _ _; rfl
  | cons a rest ih =>
      intro r hco hcons
      simp only [traceCoherent, Bool.and_eq_true] at hco
      obtain ⟨hco1, hco2⟩ := hco
      have hco1m : ∀ b ∈ rest, mtimeCoherentB a b = true := by
        intro b hb
        exact List.all_eq_true.mp hco1 b hb
      have hcrest : readerConsistent r rest := by
        intro g hg hle
        exact hcons g (List.mem_cons_of_mem a hg) hle
      cases a with
      | none =>
          simp only [runCached, runUncached, List.map, read_message,
            read_message_uncached]
          rw [ih r hco2 hcrest]
          rfl
      | some f =>
          by_cases hlt : r.last_modified < f.mtime
          · have hr1 : (read_message (some f) r).2 =
                ⟨f.mtime, pyStrip (readline f.content)⟩ := by
              simp only [read_message]
              rw [if_pos hlt]
            have hout : (read_message (some f) r).1 =
                read_message_uncached (some f) := by
              simp only [read_message, read_message_uncached]
              rw [if_pos hlt]
            have hc2 : readerConsistent
                ⟨f.mtime, pyStrip (readline f.content)⟩ rest := by
              intro g hg hle
              have hcoh := hco1m (some g) hg
              simp only [mtimeCoherentB, Bool.or_eq_true, decide_eq_true_eq,
                beq_iff_eq] at hcoh
              rcases hcoh with hcoh | hcoh
              · exact absurd hcoh (by exact Nat.not_lt.mpr hle)
              · show pyStrip (readline g.content) = pyStrip (readline f.content)
                rw [hcoh]
            simp only [runCached, runUncached, List.map]
            rw [hout, hr1, ih _ hco2 hc2]
            rfl
          · have hle : f.mtime ≤ r.last_modified := Nat.le_of_not_lt hlt
            have hmsg : pyStrip (readline f.content) = r.cached_message :=
              hcons f (List.mem_cons_self _ _) hle
            have hr1 : (read_message (some f) r).2 = r := by
              simp only [read_message]
              rw [if_neg hlt]
            have hout : (read_message (some f) r).1 =
                read_message_uncached (some f) := by
              simp only [read_message, read_message_uncached]
              rw [if_neg hlt, hmsg]
            simp only [runCached, runUncached, List.map]
            rw [hout, hr1, ih r hco2 hcrest]
            rfl

/-- C7: the modification-time cache is a pure optimization.  For every
sequence of reads whose file snapshots have positive modification times
and in which the modification time advances whenever the content changes,
the caching reader of `clock.py` returns, read for read, the same strings
as a reader that re-reads the file on every call. -/
theorem message_caching_refinement (tr : List (Option FSFile))
    (hpos : traceMtimesPos tr = true) (hco : traceCoherent tr = true) :
    runCached freshReader tr = runUncached tr := by
  refine runCached_eq_of_consistent tr freshReader hco ?_
  intro f hf hle
  exact absurd (mtimes_pos_of_mem tr hpos f hf)
    (by simpa [freshReader] using Nat.not_lt.mpr hle)

/-- Witness for C7 on a four-snapshot trace: an unchanged file, a missing
file, then a changed file with an advanced modification time. -/
theorem message_caching_refinement_witness :
    traceMtimesPos
        [some ⟨1, "a\nx\n"⟩, some ⟨1, "a\nx\n"⟩, none, some ⟨2, "b\n"⟩]
      = true ∧
    traceCoherent
        [some ⟨1, "a\nx\n"⟩, some ⟨1, "a\nx\n"⟩, none, some ⟨2, "b\n"⟩]
      = true ∧
    runCached freshReader
        [some ⟨1, "a\nx\n"⟩, some ⟨1, "a\nx\n"⟩, none, some ⟨2, "b\n"⟩] =
      runUncached
        [some ⟨1, "a\nx\n"⟩, some ⟨1, "a\nx\n"⟩, none, some ⟨2, "b\n"⟩] :=
  ⟨by decide, by decide,
   message_caching_refinement
     [some ⟨1, "a\nx\n"⟩, some ⟨1, "a\nx\n"⟩, none, some ⟨2, "b\n"⟩]
     (by decide) (by decide)⟩

/-- Two-digit zero-padded decimal rendering: what `QTime.toString` does
for the `"hh"`, `"mm"` and `"ss"` format fields. -/
def pad2 (n : Nat) : String :=
  if n < 10 then "0" ++ toString n else toString n

/-- `QTime(0, 0, 0).addSecs(t)` viewed as an (hours, minutes, seconds)
triple; `QTime` wraps around modulo 24 hours. -/
def addSecsHMS (t : Nat) : Nat × Nat × Nat :=
  let u := t % 86400
  (u / 3600, u % 3600 / 60, u % 60)

/-- `CountdownTimer.get_time_remaining` of `clock.py`, with the current
time passed explicitly: `secsTo` becomes `target - now`; a non-positive
remainder yields `"Countdown over!"`, otherwise whole days are split off
(Python floor division on a positive int) and the rest is rendered through
`QTime` with zero-padded two-digit fields. -/
def get_time_remaining (now target : Int) : String :=
  let time_left := target - now
  if time_left ≤ 0 then "Countdown over!"
  else
    let t := time_left.toNat
    let days_left := t / 86400
    let rest := t - days_left * 86400
    let hms := addSecsHMS rest
    toString days_left ++ " days, " ++ pad2 hms.1 ++ " hrs, " ++
      pad2 hms.2.1 ++ " mins, " ++ pad2 hms.2.2 ++ " secs"

/-- Auxiliary: the rendered string in the still-counting case, with the
field values in divisor/remainder form. -/
theorem get_time_remaining_pos (now target : Int) (h : now < target) :
    get_time_remaining now target =
      toString ((target - now).toNat / 86400) ++ " days, " ++
        pad2 ((target - now).toNat % 86400 / 3600) ++ " hrs, " ++
        pad2 ((target - now).toNat % 86400 % 3600 / 60) ++ " mins, " ++
        pad2 ((target - now).toNat % 86400 % 60) ++ " secs" := by
  have hpos : ¬ (target - now ≤ 0) := by omega
  simp only [get_time_remaining, addSecsHMS]
  rw [if_neg hpos]
  have h1 : ((target - now).toNat - (target - now).toNat / 86400 * 86400) % 86400
      = (target - now).toNat % 86400 := by omega
  rw [h1]

/-- Auxiliary: `pad2` really is two digits on every sub-hundred value. -/
theorem pad2_length (n : Nat) (h : n < 100) : (pad2 n).length = 2 := by
  interval_cases n <;> rfl

/-- C2: `get_time_remaining`.  Once `now` reaches the target — equality
included — the fixed literal `"Countdown over!"` is returned, never a
negative duration; before the target the remainder decomposes into whole
days plus an hours/minutes/seconds remainder in the ranges 0–23/0–59/0–59,
rendered with zero-padded two-digit fields; one second before the target
the rendering is `"0 days, 00 hrs, 00 mins, 01 secs"`. -/
theorem countdown_remaining_spec (now target : Int) :
    (target ≤ now → get_time_remaining now target = "Countdown over!") ∧
    (now < target →
      ∃ d hh mm ss : Nat, hh < 24 ∧ mm < 60 ∧ ss < 60 ∧
        target - now = ((d * 86400 + hh * 3600 + mm * 60 + ss : Nat) : Int) ∧
        get_time_remaining now target =
          toString d ++ " days, " ++ pad2 hh ++ " hrs, " ++
            pad2 mm ++ " mins, " ++ pad2 ss ++ " secs" ∧
        (pad2 hh).length = 2 ∧ (pad2 mm).length = 2 ∧ (pad2 ss).length = 2) ∧
    (now + 1 = target →
      get_time_remaining now target = "0 days, 00 hrs, 00 mins, 01 secs") := by
  refine ⟨?_, ?_, ?_⟩
  · intro h
    simp only [get_time_remaining]
    rw [if_pos (by omega)]
  · intro h
    refine ⟨(target - now).toNat / 86400,
      (target - now).toNat % 86400 / 3600,
      (target - now).toNat % 86400 % 3600 / 60,
      (target - now).toNat % 86400 % 60,
      by omega, by omega, by omega, by omega,
      get_time_remaining_pos now target h,
      pad2_length _ (by omega), pad2_length _ (by omega),
      pad2_length _ (by omega)⟩
  · intro h
    rw [get_time_remaining_pos now target (by omega)]
    have ht : target - now = 1 := by omega
    rw [ht]
    decide

/-- Witness for C2 at the boundary (`now = target`) and one second before
the target. -/
theorem countdown_remaining_spec_witness :
    ((1 : Int) ≤ 1 ∧ get_time_remaining 1 1 = "Countdown over!") ∧
    ((0 : Int) + 1 = 1 ∧
      get_time_remaining 0 1 = "0 days, 00 hrs, 00 mins, 01 secs") :=
  ⟨⟨le_refl 1, (countdown_remaining_spec 1 1).1 (le_refl 1)⟩,
   ⟨rfl, (countdown_remaining_spec 0 1).2.2 rfl⟩⟩

/-- What `open` + `json.load` can find at the flashcards path: no file at
all, content the JSON parser rejects, or a parsed list of records.  The
parser itself lives in the Python standard library, so only its outcome is
modelled. -/
inductive SourceFile where
  | missing
  | malformed
  | wellFormed (cards : List Flashcard)
deriving DecidableEq, Repr

/-- The spec's `LoadError` taxonomy: `FileNotFoundError` or
`json.JSONDecodeError` raised while loading the flashcards file. -/
inductive LoadError where
  | fileNotFound
  | parseError
deriving DecidableEq, Repr

/-- `open(json_path)` followed by `json.load(f)`: a missing file raises
`FileNotFoundError`, malformed content raises `JSONDecodeError`, both
modelled in `Except`. -/
def json_load : SourceFile → Except LoadError (List Flashcard)
  | .missing => .error .fileNotFound
  | .malformed => .error .parseError
  | .wellFormed cards => .ok cards

/-- `load_flashcards` of `hanzi_display.py`: every load error is caught
and surfaced to the caller as `None` (the caller then aborts or keeps an
empty store). -/
def load_flashcards (src : SourceFile) : Option (List Flashcard) :=
  match json_load src with
  | .ok cards => some cards
  | .error _ => none

/-- `_load_flashcards` of `characters.py`: every load error is caught with
a logged warning and the store keeps its initial empty list. -/
def load_flashcards_into_store (src : SourceFile) : List Flashcard :=
  match json_load src with
  | .ok cards => cards
  | .error _ => []

/-- C8: a missing or malformed flashcards file makes the load fail with a
`LoadError` rather than succeed: `json.load` raises, `hanzi_display.py`
surfaces the failure to its caller as `None` (whose `main` aborts), and
`characters.py` takes the continue-with-an-empty-store branch. -/
theorem load_fails_on_bad_file (src : SourceFile)
    (h : src = SourceFile.missing ∨ src = SourceFile.malformed) :
    (∃ e : LoadError, json_load src = .error e) ∧
    (∀ cards, json_load src ≠ .ok cards) ∧
    load_flashcards src = none ∧
    load_flashcards_into_store src = [] := by
  rcases h with h | h <;> subst h <;>
    refine ⟨⟨_, rfl⟩, ?_, rfl, rfl⟩ <;>
      · intro cards hc
        simp [json_load] at hc

/-- Witness for C8 on a missing file. -/
theorem load_fails_on_bad_file_witness :
    (SourceFile.missing = SourceFile.missing ∨
      SourceFile.missing = SourceFile.malformed) ∧
    load_flashcards SourceFile.missing = none :=
  ⟨Or.inl rfl,
   (load_fails_on_bad_file SourceFile.missing (Or.inl rfl)).2.2.1⟩

/-- Outcome of the underlying interface query (the `ioctl` on `wlan0` or
`ipconfig getifaddr en0`): either the address string it reports or the
message of the exception it raises. -/
def get_ip_address (q : Except String String) : String :=
  match q with
  | .ok addr => addr
  | .error _ => "127.0.0.1"

/-- `NetworkUtils.get_wlan_ipaddress` of `clock.py`: the caught `OSError`
is rendered as an `"Error: ..."` string. -/
def NetworkUtils_get_wlan_ipaddress (q : Except String String) : String :=
  match q with
  | .ok addr => addr
  | .error e => "Error: " ++ e

/-- `NetworkUtils.get_en0_ipaddress` of `clock.py`: the caught subprocess
failure is rendered as an `"Error: ..."` string. -/
def NetworkUtils_get_en0_ipaddress (q : Except String String) : String :=
  match q with
  | .ok addr => addr
  | .error e => "Error: " ++ e

/-- `NetworkUtils.get_ip_address` of `clock.py`: dispatch on the detected
platform, no further error handling. -/
def NetworkUtils_get_ip_address (isPi : Bool) (q : Except String String) :
    String :=
  if isPi then NetworkUtils_get_wlan_ipaddress q
  else NetworkUtils_get_en0_ipaddress q

/-- A necessary condition for a dotted-quad address string: only digits
and dots. -/
def isDottedQuadShape (s : String) : Bool :=
  s.toList.all (fun c => c.isDigit || c = '.')

/-- C9 counterexample: `clock.py`'s IP query renders a failure as
`"Error: boom"` — neither a loopback address nor a dotted-quad string at
all. -/
theorem ip_error_string_not_loopback :
    NetworkUtils_get_ip_address false (.error "boom") = "Error: boom" ∧
    isDottedQuadShape "Error: boom" = false ∧
    ("Error: boom" : String) ≠ "127.0.0.1" :=
  ⟨rfl, by decide, by decide⟩

/-- C9 as amended: on success both IP queries return the interface's
address; on failure `characters.py`'s `get_ip_address` falls back to the
loopback literal `"127.0.0.1"`, while `clock.py`'s `NetworkUtils` returns
an error-message string `"Error: " ++ e` instead of a loopback address. -/
theorem ip_query_fallback (q : Except String String) (isPi : Bool) :
    (∀ a, q = .ok a → get_ip_address q = a ∧
      NetworkUtils_get_ip_address isPi q = a) ∧
    (∀ e, q = .error e → get_ip_address q = "127.0.0.1" ∧
      NetworkUtils_get_ip_address isPi q = "Error: " ++ e) := by
  constructor
  · intro a ha; subst ha
    exact ⟨rfl, by cases isPi <;> rfl⟩
  · intro e he; subst he
    exact ⟨rfl, by cases isPi <;> rfl⟩

/-- Witness for C9's amended statement on a failing query. -/
theorem ip_query_fallback_witness :
    (Except.error "x" : Except String String) = Except.error "x" ∧
    get_ip_address (Except.error "x") = "127.0.0.1" :=
  ⟨rfl, ((ip_query_fallback (Except.error "x") true).2 "x" rfl).1⟩
